import Mathlib

set_option maxHeartbeats 1000000

/-
Shallow embedding of the LRU/TTL tracking subsystem of docker-cache-server:
the access tracker (pkg/cache/lru_tracker.go) and the storage interception
layer (lru_driver).  Machine state (the in-memory blob map and the durable
metadata mirror) is passed explicitly; timestamps are integer instants and
sizes are Int (Go int64 — no arithmetic here can overflow 64 bits for the
inputs considered).  Filesystem paths under the metadata directory are
modelled as segment lists relative to metaDir.
-/

/-- Result of a fallible Go call: `none` is a nil error, `some e` carries the message. -/
structure GoError where
  msg : String
  deriving DecidableEq, Repr

/-- BlobMeta mirrors the Go struct from pkg/cache/lru_tracker.go
(fields digest, last_accessed, size, created_at). -/
structure BlobMeta where
  digest : String
  lastAccessed : Int
  size : Int
  createdAt : Int
  deriving DecidableEq, Repr

/-- First-match association-list lookup, modelling Go map indexing. -/
def alookup {κ ν : Type} [DecidableEq κ] : List (κ × ν) → κ → Option ν
  | [], _ => none
  | e :: rest, k => if e.1 = k then some e.2 else alookup rest k

/-- Association-list key removal, modelling Go map `delete`. -/
def aerase {κ ν : Type} [DecidableEq κ] (l : List (κ × ν)) (k : κ) : List (κ × ν) :=
  l.filter (fun e => decide (e.1 ≠ k))

/-- Association-list insert/replace, modelling Go map assignment. -/
def ainsert {κ ν : Type} [DecidableEq κ] (l : List (κ × ν)) (k : κ) (v : ν) : List (κ × ν) :=
  (k, v) :: aerase l k

/-- The keys of the association list are pairwise distinct (true of any list
that represents a Go map). -/
abbrev nodupKeys {κ ν : Type} (l : List (κ × ν)) : Prop :=
  (l.map Prod.fst).Nodup

/-- In-memory state of the tracker: the `blobs` map. -/
abbrev TrackerState := List (String × BlobMeta)

/-- The durable mirror under metaDir: path segments ↦ parse result of the file
content (`some m` = well-formed serialized BlobMeta, `none` = unparseable data). -/
abbrev FS := List (List String × Option BlobMeta)

/-- Character count of a string; equal to Go's byte length for the ASCII
keys and paths this system produces. -/
def strLen (s : String) : Nat := s.toList.length

/-- Character-indexed prefix, equal to Go byte slicing `s[:n]` on ASCII strings. -/
def strTake (s : String) (n : Nat) : String := String.mk (s.toList.take n)

/-- Character-indexed suffix, equal to Go byte slicing `s[n:]` on ASCII strings. -/
def strDrop (s : String) (n : Nat) : String := String.mk (s.toList.drop n)

/-- Known algorithms of go-digest with their byte sizes (sha256/sha384/sha512);
`none` means `Algorithm.Available()` is false. -/
def availableAlgSize (a : String) : Option Nat :=
  if a = "sha256" then some 32
  else if a = "sha384" then some 48
  else if a = "sha512" then some 64
  else none

/-- Lowercase-hex character class of go-digest's anchored encoded regexps. -/
def isLowerHex (c : Char) : Bool :=
  ('a' ≤ c && c ≤ 'f') || ('0' ≤ c && c ≤ '9')

/-- digest.Parse succeeds exactly when Digest.Validate does: a first colon at a
positive index with a nonempty remainder, a known algorithm before it, and an
encoded part of exactly the algorithm's size*2 lowercase-hex characters.  For
an unknown algorithm Validate reports either ErrDigestInvalidFormat or
ErrDigestUnsupported, so Parse fails either way. -/
def digestValid (s : String) : Bool :=
  let cs := s.toList
  match cs.findIdx? (fun c => c == ':') with
  | none => false
  | some i =>
      if i = 0 then false
      else if i + 1 = cs.length then false
      else
        match availableAlgSize (String.mk (cs.take i)) with
        | none => false
        | some sz =>
            let enc := cs.drop (i + 1)
            enc.length == sz * 2 && enc.all isLowerHex

/-- Accumulator loop of the driver's splitPath: split on '/', dropping empty
segments (current segment chars are kept reversed). -/
def splitPathGo : List Char → List Char → List String → List String
  | [], cur, acc =>
      if cur = [] then acc.reverse else (String.mk cur.reverse :: acc).reverse
  | c :: rest, cur, acc =>
      if c = '/' then
        if cur = [] then splitPathGo rest [] acc
        else splitPathGo rest [] (String.mk cur.reverse :: acc)
      else splitPathGo rest (c :: cur) acc

/-- splitPath from the lru_driver: splits a path on '/' and drops empty parts. -/
def splitPath (path : String) : List String :=
  splitPathGo path.toList [] []

/-- Loop body of extractDigestFromPath over the split segments: at each
"blobs" segment with at least three following segments, try to parse
algorithm ++ ":" ++ fullDigest (segments at offsets +1 and +3; the shard
segment at +2 is read past without any check) and return the first success;
otherwise keep scanning. -/
def extractScan : List String → String
  | [] => ""
  | p :: rest =>
      if p = "blobs" then
        match rest with
        | alg :: _shard :: full :: _ =>
            if digestValid (alg ++ ":" ++ full) then alg ++ ":" ++ full
            else extractScan rest
        | _ => extractScan rest
      else extractScan rest

/-- extractDigestFromPath from the lru_driver: paths shorter than 20 bytes
yield "", otherwise the segment scan runs; "" signals "no digest". -/
def extractDigestFromPath (path : String) : String :=
  if strLen path < 20 then "" else extractScan (splitPath path)

/-- Modelled from the spec (section 4.1 and claim C4): a path "matches the
fixed blob shape" when some "blobs" segment is followed by an algorithm
segment, a TWO-CHARACTER shard segment, and a full digest segment that
together with the algorithm parses as a digest.  Used only to compare the
spec's wording with the code's extractor. -/
def specHasBlobShape : List String → Bool
  | [] => false
  | p :: rest =>
      if p = "blobs" then
        match rest with
        | alg :: shard :: full :: _ =>
            (strLen shard == 2 && digestValid (alg ++ ":" ++ full)) || specHasBlobShape rest
        | _ => specHasBlobShape rest
      else specHasBlobShape rest

/-- LRUTracker.RecordAccess: bump lastAccessed for an existing entry, else
create the entry with createdAt = lastAccessed = now and the given size;
always returns a nil error.  The `go saveMetadata(key)` it spawns is modelled
by the separate `saveMetadata`, applied at whatever later time the goroutine
runs (see the stale-save claim). -/
def RecordAccess (st : TrackerState) (key : String) (size now : Int) :
    Option GoError × TrackerState :=
  match alookup st key with
  | some meta => (none, ainsert st key { meta with lastAccessed := now })
  | none =>
      (none, ainsert st key
        { digest := key, lastAccessed := now, size := size, createdAt := now })

/-- LRUTracker.RecordWrite simply delegates to RecordAccess. -/
def RecordWrite (st : TrackerState) (key : String) (size now : Int) :
    Option GoError × TrackerState :=
  RecordAccess st key size now

/-- LRUTracker.GetExpiredBlobs: keys whose age strictly exceeds the ttl AND
that digest.Parse accepts (a key failing to parse is silently dropped). -/
def GetExpiredBlobs (st : TrackerState) (now ttl : Int) : List String :=
  (st.filter (fun e => decide (ttl < now - e.2.lastAccessed) && digestValid e.1)).map Prod.fst

/-- getMetaFilePath: keys longer than 10 characters are sharded as
metaDir/key[0:2]/key[2:4]/key.json, shorter keys live at metaDir/key.json. -/
def getMetaFilePath (key : String) : List String :=
  if 10 < strLen key then [strTake key 2, strTake (strDrop key 2) 2, key ++ ".json"]
  else [key ++ ".json"]

/-- saveMetadata: look the key up under the lock; if it is gone, write
nothing; otherwise serialize and write its mirror file.  JSON serialization
of BlobMeta is modelled as the identity (Marshal cannot fail on this struct
and Unmarshal inverts it); MkdirAll/WriteFile faults only log and are not
modelled. -/
def saveMetadata (st : TrackerState) (fs : FS) (key : String) : FS :=
  match alookup st key with
  | none => fs
  | some meta => ainsert fs (getMetaFilePath key) (some meta)

/-- filepath.Ext for a bare file name (no separators): the suffix starting at
the final dot, "" when there is no dot. -/
def fileExt (name : String) : String :=
  if name.toList.contains '.' then
    String.mk ('.' :: (name.toList.reverse.takeWhile (fun c => !(c == '.'))).reverse)
  else ""

/-- Immediate regular-file children of metaDir, as os.ReadDir exposes them:
exactly the mirror entries whose path has a single segment.  A name under
which deeper entries exist is a directory and is skipped by loadMetadata. -/
def topLevelFiles (fs : FS) : List (String × Option BlobMeta) :=
  fs.filterMap (fun e =>
    match e.1 with
    | [n] => some (n, e.2)
    | _ => none)

/-- loadMetadata: iterate the immediate children of metaDir (os.ReadDir — it
does NOT recurse), skip directories and non-".json" names, skip entries whose
content fails to parse, and insert the rest keyed by their recorded digest
field.  ReadDir's name-sorted order is modelled by list order; it only
matters when two distinct files carry the same digest. -/
def loadMetadata (fs : FS) (st : TrackerState) : TrackerState :=
  (topLevelFiles fs).foldl
    (fun acc e =>
      if fileExt e.1 = ".json" then
        match e.2 with
        | some meta => ainsert acc meta.digest meta
        | none => acc
      else acc) st

/-- Outcome classes of os.Remove that RemoveBlob distinguishes. -/
inductive RemoveFileErr
  | notExist
  | ioErr
  deriving DecidableEq, Repr

/-- os.Remove on the modelled mirror; `fault` injects a failure other than
IsNotExist (permissions, I/O, ...). -/
def osRemove (fs : FS) (p : List String) (fault : Bool) : Option RemoveFileErr × FS :=
  if fault then (some RemoveFileErr.ioErr, fs)
  else
    match alookup fs p with
    | some _ => (none, aerase fs p)
    | none => (some RemoveFileErr.notExist, fs)

/-- LRUTracker.RemoveBlob: delete the in-memory entry first, then remove the
mirror file; an IsNotExist failure is swallowed, any other failure is
returned (the in-memory deletion is not undone). -/
def RemoveBlob (st : TrackerState) (fs : FS) (key : String) (fault : Bool) :
    Option GoError × TrackerState × FS :=
  let st2 := aerase st key
  match osRemove fs (getMetaFilePath key) fault with
  | (some RemoveFileErr.ioErr, fs2) => (some { msg := "removing metadata file" }, st2, fs2)
  | (_, fs2) => (none, st2, fs2)

/-- One iteration of runCleanup's loop: a failing deleteFunc means `continue`
(nothing is removed); a succeeding one is followed by RemoveBlob, whose own
error is only logged. -/
def cleanupStep (deleteOk removeFault : String → Bool)
    (acc : TrackerState × FS) (k : String) : TrackerState × FS :=
  if deleteOk k then
    let r := RemoveBlob acc.1 acc.2 k (removeFault k)
    (r.2.1, r.2.2)
  else acc

/-- LRUTracker.runCleanup: snapshot the expired keys once, then per key invoke
the deletion callback and, only on success, RemoveBlob.  The callback outcome
and os.Remove fault injection are oracles per key; the freed-bytes/deleted
counters are report-only and omitted. -/
def runCleanup (st : TrackerState) (fs : FS) (now ttl : Int)
    (deleteOk removeFault : String → Bool) : TrackerState × FS :=
  (GetExpiredBlobs st now ttl).foldl (cleanupStep deleteOk removeFault) (st, fs)

/-- Driver.GetContent: a failing base read propagates unchanged with no
tracking; on success, a non-empty extracted digest triggers one tracking call
whose error result is only logged.  `rec` is the tracker's RecordAccess seen
through the interface the driver calls (the driver must tolerate any error it
reports). -/
def DriverGetContent
    (rec : TrackerState → String → Int → Int → Option GoError × TrackerState)
    (base : Except GoError (List Nat)) (st : TrackerState) (now : Int) (path : String) :
    Except GoError (List Nat) × TrackerState :=
  match base with
  | Except.error e => (Except.error e, st)
  | Except.ok content =>
      let d := extractDigestFromPath path
      if d = "" then (Except.ok content, st)
      else (Except.ok content, (rec st d (Int.ofNat content.length) now).2)

/-- Driver.Reader: like GetContent but the tracked size comes from Stat, and a
failing Stat skips tracking without affecting the returned reader. -/
def DriverReader {α : Type}
    (rec : TrackerState → String → Int → Int → Option GoError × TrackerState)
    (base : Except GoError α) (stat : Except GoError Int)
    (st : TrackerState) (now : Int) (path : String) :
    Except GoError α × TrackerState :=
  match base with
  | Except.error e => (Except.error e, st)
  | Except.ok reader =>
      let d := extractDigestFromPath path
      if d = "" then (Except.ok reader, st)
      else
        match stat with
        | Except.ok sz => (Except.ok reader, (rec st d sz now).2)
        | Except.error _ => (Except.ok reader, st)

/-- The wrapper handle Driver.Writer returns: the base writer plus the digest
extracted eagerly from the path. -/
structure LruFileWriter (α : Type) where
  fileWriter : α
  digest : String
  path : String
  deriving DecidableEq, Repr

/-- Driver.Writer: a failing base Writer propagates unchanged; on success the
base handle is wrapped with the eagerly extracted digest.  No tracker call
happens here (by construction the tracker state is not even an input). -/
def DriverWriter {α : Type} (base : Except GoError α) (path : String) :
    Except GoError (LruFileWriter α) :=
  match base with
  | Except.error e => Except.error e
  | Except.ok w => Except.ok { fileWriter := w, digest := extractDigestFromPath path, path := path }

/-- Driver.recordWrite: Stat the path; only on success call the tracker's
RecordWrite (whose error result is only logged). -/
def DriverRecordWrite
    (rec : TrackerState → String → Int → Int → Option GoError × TrackerState)
    (st : TrackerState) (dgst : String) (stat : Except GoError Int) (now : Int) :
    TrackerState :=
  match stat with
  | Except.ok sz => (rec st dgst sz now).2
  | Except.error _ => st

/-- lruFileWriter.Commit: a failing base Commit propagates unchanged with no
tracking; on success, tracking runs only when a digest was extracted at open
time, through Driver.recordWrite (hence only when Stat succeeds too). -/
def lruFileWriterCommit {α : Type}
    (rec : TrackerState → String → Int → Int → Option GoError × TrackerState)
    (w : LruFileWriter α) (baseCommit : Option GoError)
    (stat : Except GoError Int) (st : TrackerState) (now : Int) :
    Option GoError × TrackerState :=
  match baseCommit with
  | some e => (some e, st)
  | none =>
      if w.digest = "" then (none, st)
      else (none, DriverRecordWrite rec st w.digest stat now)

/-- Driver.Move: a failing base Move propagates unchanged with no tracking; on
success the digest is extracted from the destination path and recorded as a
write via Driver.recordWrite. -/
def DriverMove
    (rec : TrackerState → String → Int → Int → Option GoError × TrackerState)
    (baseMove : Option GoError) (stat : Except GoError Int)
    (st : TrackerState) (now : Int) (dst : String) : Option GoError × TrackerState :=
  match baseMove with
  | some e => (some e, st)
  | none =>
      let d := extractDigestFromPath dst
      if d = "" then (none, st)
      else (none, DriverRecordWrite rec st d stat now)

/-- A sequence of RecordAccess/RecordWrite calls on one key; each call is a
(timestamp, size) pair, applied in order. -/
def runCalls (st : TrackerState) (k : String) (calls : List (Int × Int)) : TrackerState :=
  calls.foldl (fun acc c => (RecordAccess acc k c.2 c.1).2) st

theorem aerase_cons {κ ν : Type} [DecidableEq κ] (e : κ × ν) (l : List (κ × ν)) (k : κ) :
    aerase (e :: l) k = if e.1 = k then aerase l k else e :: aerase l k := by
  by_cases h : e.1 = k <;> simp [aerase, List.filter_cons, h]

theorem alookup_ainsert_self {κ ν : Type} [DecidableEq κ] (l : List (κ × ν)) (k : κ) (v : ν) :
    alookup (ainsert l k v) k = some v := by
  simp [ainsert, alookup]

theorem alookup_aerase_self {κ ν : Type} [DecidableEq κ] (l : List (κ × ν)) (k : κ) :
    alookup (aerase l k) k = none := by
  induction l with
  | nil => rfl
  | cons e rest ih =>
      rw [aerase_cons]
      by_cases h : e.1 = k
      · simpa [h] using ih
      · simp [alookup, h, ih]

theorem alookup_aerase_ne {κ ν : Type} [DecidableEq κ] (l : List (κ × ν)) (k k2 : κ)
    (h : k2 ≠ k) : alookup (aerase l k) k2 = alookup l k2 := by
  induction l with
  | nil => rfl
  | cons e rest ih =>
      rw [aerase_cons]
      by_cases he : e.1 = k
      · rw [if_pos he, ih]
        have hne : ¬ e.1 = k2 := by rw [he]; exact fun hh => h hh.symm
        simp [alookup, hne]
      · rw [if_neg he]
        by_cases h2 : e.1 = k2 <;> simp [alookup, h2, ih]

theorem alookup_ainsert_ne {κ ν : Type} [DecidableEq κ] (l : List (κ × ν)) (k k2 : κ) (v : ν)
    (h : k2 ≠ k) : alookup (ainsert l k v) k2 = alookup l k2 := by
  have hne : ¬ k = k2 := fun hh => h hh.symm
  simp [ainsert, alookup, hne, alookup_aerase_ne l k k2 h]

theorem alookup_eq_some_of_mem {κ ν : Type} [DecidableEq κ] {l : List (κ × ν)} {k : κ} {v : ν}
    (hnd : nodupKeys l) (hm : (k, v) ∈ l) : alookup l k = some v := by
  induction l with
  | nil => cases hm
  | cons e rest ih =>
      have hnd2 : (e.1 ∉ rest.map Prod.fst) ∧ nodupKeys rest := by
        simpa [nodupKeys, List.nodup_cons] using hnd
      rcases List.mem_cons.mp hm with h1 | h2
      · rw [← h1]; simp [alookup]
      · have hk : ¬ e.1 = k := by
          intro he
          exact hnd2.1 (he ▸ List.mem_map.mpr ⟨(k, v), h2, rfl⟩)
        simp [alookup, hk]
        exact ih hnd2.2 h2

theorem mem_of_alookup_eq_some {κ ν : Type} [DecidableEq κ] {l : List (κ × ν)} {k : κ} {v : ν}
    (h : alookup l k = some v) : (k, v) ∈ l := by
  induction l with
  | nil => simp [alookup] at h
  | cons e rest ih =>
      by_cases he : e.1 = k
      · simp [alookup, he] at h
        have : e = (k, v) := by
          rcases e with ⟨a, b⟩
          simp at he h
          exact Prod.ext he h
        rw [← this]; exact List.mem_cons_self e rest
      · simp [alookup, he] at h
        exact List.mem_cons_of_mem _ (ih h)

theorem nodupKeys_aerase {κ ν : Type} [DecidableEq κ] {l : List (κ × ν)} (k : κ)
    (h : nodupKeys l) : nodupKeys (aerase l k) :=
  List.Nodup.sublist (List.Sublist.map Prod.fst (List.filter_sublist l)) h

theorem nodupKeys_ainsert {κ ν : Type} [DecidableEq κ] {l : List (κ × ν)} (k : κ) (v : ν)
    (h : nodupKeys l) : nodupKeys (ainsert l k v) := by
  unfold nodupKeys ainsert
  rw [List.map_cons, List.nodup_cons]
  constructor
  · intro hmem
    rcases List.mem_map.mp hmem with ⟨e, hme, hek⟩
    have := List.of_mem_filter hme
    simp at this
    exact this hek
  · exact nodupKeys_aerase k h

theorem recordAccess_err (st : TrackerState) (k : String) (sz n : Int) :
    (RecordAccess st k sz n).1 = none := by
  unfold RecordAccess
  cases alookup st k <;> simp

theorem recordAccess_lookup_self_new (st : TrackerState) (k : String) (sz n : Int)
    (h : alookup st k = none) :
    alookup (RecordAccess st k sz n).2 k =
      some { digest := k, lastAccessed := n, size := sz, createdAt := n } := by
  simp [RecordAccess, h, alookup_ainsert_self]

theorem recordAccess_lookup_self_old (st : TrackerState) (k : String) (sz n : Int)
    (m : BlobMeta) (h : alookup st k = some m) :
    alookup (RecordAccess st k sz n).2 k =
      some { digest := m.digest, lastAccessed := n, size := m.size, createdAt := m.createdAt } := by
  simp [RecordAccess, h, alookup_ainsert_self]

theorem runCalls_cons (st : TrackerState) (k : String) (c : Int × Int) (cs : List (Int × Int)) :
    runCalls st k (c :: cs) = runCalls (RecordAccess st k c.2 c.1).2 k cs := rfl

theorem runCalls_lookup_old (k : String) :
    ∀ (calls : List (Int × Int)) (st : TrackerState) (m : BlobMeta),
      alookup st k = some m →
      alookup (runCalls st k calls) k =
        some { digest := m.digest, lastAccessed := (calls.map Prod.fst).getLastD m.lastAccessed,
               size := m.size, createdAt := m.createdAt } := by
  intro calls
  induction calls with
  | nil =>
      intro st m h
      simpa [runCalls] using h
  | cons c cs ih =>
      intro st m h
      rw [runCalls_cons]
      have h2 := recordAccess_lookup_self_old st k c.2 c.1 m h
      have h3 := ih _ _ h2
      rw [List.map_cons, List.getLastD_cons]
      exact h3

theorem runCalls_lookup_new (k : String) (st : TrackerState) (c : Int × Int)
    (cs : List (Int × Int)) (h : alookup st k = none) :
    alookup (runCalls st k (c :: cs)) k =
      some { digest := k, lastAccessed := (cs.map Prod.fst).getLastD c.1,
             size := c.2, createdAt := c.1 } := by
  rw [runCalls_cons]
  exact runCalls_lookup_old k cs _ _ (recordAccess_lookup_self_new st k c.2 c.1 h)

theorem digestValid_ne_empty {s : String} (h : digestValid s = true) : s ≠ "" := by
  intro he
  rw [he] at h
  exact absurd h (by decide)

theorem extractScan_valid (parts : List String) :
    extractScan parts = "" ∨ digestValid (extractScan parts) = true := by
  induction parts with
  | nil => exact Or.inl rfl
  | cons p rest ih =>
      unfold extractScan
      split
      · split
        · split
          · next hv => exact Or.inr hv
          · exact ih
        · exact ih
      · exact ih

theorem extractScan_sound : ∀ (parts : List String),
    extractScan parts ≠ "" →
    ∃ l r alg shard full, parts = l ++ "blobs" :: alg :: shard :: full :: r ∧
      extractScan parts = alg ++ ":" ++ full := by
  intro parts
  induction parts with
  | nil => intro h; exact absurd rfl h
  | cons p rest ih =>
      intro h
      by_cases hp : p = "blobs"
      · subst hp
        rcases rest with _ | ⟨alg, _ | ⟨shard, _ | ⟨full, t⟩⟩⟩
        · have he : extractScan ["blobs"] = "" := rfl
          exact absurd he h
        · have he : extractScan ["blobs", alg] = extractScan [alg] := rfl
          rw [he] at h
          rcases ih h with ⟨l, r, a2, s2, f2, hdec, heq⟩
          exact ⟨"blobs" :: l, r, a2, s2, f2, by rw [hdec]; rfl, by rw [he]; exact heq⟩
        · have he : extractScan ["blobs", alg, shard] = extractScan [alg, shard] := rfl
          rw [he] at h
          rcases ih h with ⟨l, r, a2, s2, f2, hdec, heq⟩
          exact ⟨"blobs" :: l, r, a2, s2, f2, by rw [hdec]; rfl, by rw [he]; exact heq⟩
        · by_cases hv : digestValid (alg ++ ":" ++ full) = true
          · refine ⟨[], t, alg, shard, full, rfl, ?h1⟩
            simp [extractScan, hv]
          · have he : extractScan ("blobs" :: alg :: shard :: full :: t) =
                extractScan (alg :: shard :: full :: t) := by
              simp [extractScan, hv]
            rw [he] at h
            rcases ih h with ⟨l, r, a2, s2, f2, hdec, heq⟩
            exact ⟨"blobs" :: l, r, a2, s2, f2, by rw [hdec]; rfl, by rw [he]; exact heq⟩
      · have he : extractScan (p :: rest) = extractScan rest := by
          simp [extractScan, hp]
        rw [he] at h
        rcases ih h with ⟨l, r, a2, s2, f2, hdec, heq⟩
        exact ⟨p :: l, r, a2, s2, f2, by rw [hdec]; rfl, by rw [he]; exact heq⟩

theorem extractScan_cons_ne_empty (p : String) (rest : List String)
    (h : extractScan rest ≠ "") : extractScan (p :: rest) ≠ "" := by
  by_cases hp : p = "blobs"
  · subst hp
    rcases rest with _ | ⟨alg, _ | ⟨shard, _ | ⟨full, t⟩⟩⟩
    · exact absurd rfl h
    · exact h
    · exact h
    · by_cases hv : digestValid (alg ++ ":" ++ full) = true
      · have he : extractScan ("blobs" :: alg :: shard :: full :: t) = alg ++ ":" ++ full := by
          simp [extractScan, hv]
        rw [he]
        exact digestValid_ne_empty hv
      · have he : extractScan ("blobs" :: alg :: shard :: full :: t) =
            extractScan (alg :: shard :: full :: t) := by
          simp [extractScan, hv]
        rw [he]
        exact h
  · have he : extractScan (p :: rest) = extractScan rest := by
      simp [extractScan, hp]
    rw [he]
    exact h

theorem extractScan_complete :
    ∀ (l : List String) (alg shard full : String) (r : List String),
      digestValid (alg ++ ":" ++ full) = true →
      extractScan (l ++ "blobs" :: alg :: shard :: full :: r) ≠ "" := by
  intro l
  induction l with
  | nil =>
      intro alg shard full r hv
      have he : extractScan ("blobs" :: alg :: shard :: full :: r) = alg ++ ":" ++ full := by
        simp [extractScan, hv]
      rw [List.nil_append, he]
      exact digestValid_ne_empty hv
  | cons a l2 ih =>
      intro alg shard full r hv
      rw [List.cons_append]
      exact extractScan_cons_ne_empty a _ (ih alg shard full r hv)

theorem removeBlob_state (st : TrackerState) (fs : FS) (key : String) (fault : Bool) :
    (RemoveBlob st fs key fault).2.1 = aerase st key := by
  unfold RemoveBlob
  rcases h : osRemove fs (getMetaFilePath key) fault with ⟨r, fs2⟩
  rcases r with _ | r
  · rfl
  · cases r <;> rfl

theorem cleanupStep_state_of_ok (dok rf : String → Bool) (acc : TrackerState × FS)
    (a : String) (ha : dok a = true) :
    (cleanupStep dok rf acc a).1 = aerase acc.1 a := by
  simp [cleanupStep, ha, removeBlob_state]

theorem cleanupStep_state_of_fail (dok rf : String → Bool) (acc : TrackerState × FS)
    (a : String) (ha : dok a = false) :
    cleanupStep dok rf acc a = acc := by
  simp [cleanupStep, ha]

theorem cleanupFold_lookup_preserved (dok rf : String → Bool) (k : String)
    (hk : dok k = false) :
    ∀ (L : List String) (acc : TrackerState × FS),
      alookup (L.foldl (cleanupStep dok rf) acc).1 k = alookup acc.1 k := by
  intro L
  induction L with
  | nil => intro acc; rfl
  | cons a L2 ih =>
      intro acc
      rw [List.foldl_cons, ih]
      by_cases ha : dok a = true
      · rw [cleanupStep_state_of_ok dok rf acc a ha]
        have hne : k ≠ a := by
          intro he
          rw [he, ha] at hk
          cases hk
        exact alookup_aerase_ne acc.1 a k hne
      · rw [cleanupStep_state_of_fail dok rf acc a (by simpa using ha)]

theorem cleanupFold_lookup_none (dok rf : String → Bool) (k : String) :
    ∀ (L : List String) (acc : TrackerState × FS), alookup acc.1 k = none →
      alookup (L.foldl (cleanupStep dok rf) acc).1 k = none := by
  intro L
  induction L with
  | nil => intro acc h; exact h
  | cons a L2 ih =>
      intro acc h
      rw [List.foldl_cons]
      apply ih
      by_cases ha : dok a = true
      · rw [cleanupStep_state_of_ok dok rf acc a ha]
        by_cases hka : k = a
        · rw [hka]; exact alookup_aerase_self acc.1 a
        · rw [alookup_aerase_ne acc.1 a k hka]; exact h
      · rw [cleanupStep_state_of_fail dok rf acc a (by simpa using ha)]; exact h

theorem cleanupFold_removes (dok rf : String → Bool) (k : String) (hk : dok k = true) :
    ∀ (L : List String) (acc : TrackerState × FS), k ∈ L →
      alookup (L.foldl (cleanupStep dok rf) acc).1 k = none := by
  intro L
  induction L with
  | nil => intro acc h; cases h
  | cons a L2 ih =>
      intro acc hmem
      rw [List.foldl_cons]
      by_cases hak : k = a
      · apply cleanupFold_lookup_none
        rw [← hak, cleanupStep_state_of_ok dok rf acc k hk]
        exact alookup_aerase_self acc.1 k
      · rcases List.mem_cons.mp hmem with h1 | h2
        · exact absurd h1 hak
        · exact ih (cleanupStep dok rf acc a) h2

theorem mem_getExpiredBlobs_intro (st : TrackerState) (now ttl : Int) (k : String)
    (m : BlobMeta) (hmem : (k, m) ∈ st) (hv : digestValid k = true)
    (hlt : ttl < now - m.lastAccessed) : k ∈ GetExpiredBlobs st now ttl := by
  unfold GetExpiredBlobs
  apply List.mem_map.mpr
  refine ⟨(k, m), List.mem_filter.mpr ⟨hmem, ?hp⟩, rfl⟩
  simp [hlt, hv]

theorem mem_getExpiredBlobs_elim (st : TrackerState) (now ttl : Int) (k : String)
    (hnd : nodupKeys st) (hmem : k ∈ GetExpiredBlobs st now ttl) :
    digestValid k = true ∧ ∃ m, alookup st k = some m ∧ ttl < now - m.lastAccessed := by
  unfold GetExpiredBlobs at hmem
  rcases List.mem_map.mp hmem with ⟨e, hef, hek⟩
  have hf := List.mem_filter.mp hef
  have hp : ttl < now - e.2.lastAccessed ∧ digestValid e.1 = true := by
    have := hf.2
    simpa using this
  subst hek
  exact ⟨hp.2, e.2, alookup_eq_some_of_mem hnd (by simpa using hf.1), hp.1⟩

example : splitPath "/docker/registry/v2/blobs/sha256/aa/bb/data" =
    ["docker", "registry", "v2", "blobs", "sha256", "aa", "bb", "data"] := by decide

example : digestValid ("sha256:" ++ String.mk (List.replicate 64 'a')) = true := by decide

example : digestValid "sha256:zz" = false := by decide

example : extractDigestFromPath
    ("/docker/registry/v2/blobs/sha256/aa/" ++ String.mk (List.replicate 64 'a') ++ "/data") =
    "sha256:" ++ String.mk (List.replicate 64 'a') := by decide

example : extractDigestFromPath "/docker/registry/v2/repositories/foo/_uploads/xyz" = "" := by decide

example : getMetaFilePath "sha256:abc" = ["sha256:abc.json"] := by decide

example : getMetaFilePath "sha256:abcd" = ["sh", "a2", "sha256:abcd.json"] := by decide

example : fileExt "a.b.json" = ".json" := by decide

example : fileExt "nodot" = "" := by decide

/-- C9: every RecordAccess/RecordWrite call returns a nil error; the first
call for a key creates its entry with createdAt = lastAccessed = now; each
later call sets lastAccessed to its own timestamp leaving createdAt (and
size and digest) unchanged; hence over any nonempty call sequence the final
lastAccessed is the timestamp of the most recent call (so it is
non-decreasing when the clock is). -/
theorem C9_recordAccess_postcondition (st : TrackerState) (k : String) :
    (∀ sz n, (RecordAccess st k sz n).1 = none) ∧
    (alookup st k = none → ∀ sz n,
        alookup (RecordAccess st k sz n).2 k =
          some { digest := k, lastAccessed := n, size := sz, createdAt := n }) ∧
    (∀ m sz n, alookup st k = some m →
        alookup (RecordAccess st k sz n).2 k =
          some { digest := m.digest, lastAccessed := n, size := m.size,
                 createdAt := m.createdAt }) ∧
    (alookup st k = none → ∀ (c : Int × Int) (cs : List (Int × Int)),
        (alookup (runCalls st k (c :: cs)) k).map BlobMeta.lastAccessed =
          some ((cs.map Prod.fst).getLastD c.1) ∧
        (alookup (runCalls st k (c :: cs)) k).map BlobMeta.createdAt = some c.1) := by
  refine ⟨fun sz n => recordAccess_err st k sz n, ?g1, ?g2, ?g3⟩
  · intro h sz n
    exact recordAccess_lookup_self_new st k sz n h
  · intro m sz n h
    exact recordAccess_lookup_self_old st k sz n m h
  · intro h c cs
    rw [runCalls_lookup_new k st c cs h]
    exact ⟨rfl, rfl⟩

/-- Witness for C9 at a concrete three-call sequence: the final lastAccessed
is the last call's timestamp. -/
theorem C9_witness :
    (alookup (runCalls [] "sha256:bbb" [(1, 100), (2, 100), (7, 100)]) "sha256:bbb").map
        BlobMeta.lastAccessed = some 7 := by
  have h := ((C9_recordAccess_postcondition [] "sha256:bbb").2.2.2 rfl
    (1, 100) [(2, 100), (7, 100)]).1
  rw [h]
  decide

/-- C3 counterexample: after recordAccess("sha256:bbb",100) then
recordAccess("sha256:bbb",200) the tracked size is 100, the size argument of
the FIRST call, not of the most recent one (the update path never touches
Size). -/
theorem C3_size_counterexample :
    (alookup (runCalls [] "sha256:bbb" [(1, 100), (2, 200)]) "sha256:bbb").map BlobMeta.size
      = some 100 ∧ (100 : Int) ≠ 200 := by decide

/-- C3 (amended): the tracked size equals the size argument of the call that
created the entry; recordAccess/recordWrite calls on an existing entry leave
size unchanged. -/
theorem C3_size_amended (st : TrackerState) (k : String) :
    (alookup st k = none → ∀ (c : Int × Int) (cs : List (Int × Int)),
        (alookup (runCalls st k (c :: cs)) k).map BlobMeta.size = some c.2) ∧
    (∀ m, alookup st k = some m → ∀ calls,
        (alookup (runCalls st k calls) k).map BlobMeta.size = some m.size) := by
  constructor
  · intro h c cs
    rw [runCalls_lookup_new k st c cs h]
    rfl
  · intro m h calls
    rw [runCalls_lookup_old k calls st m h]
    rfl

/-- Witness for the amended C3 at the counterexample's inputs. -/
theorem C3_amended_witness :
    (alookup (runCalls [] "sha256:bbb" [(1, 100), (2, 200)]) "sha256:bbb").map BlobMeta.size
      = some 100 :=
  (C3_size_amended [] "sha256:bbb").1 rfl (1, 100) [(2, 200)]

/-- C10: a scheduled asynchronous saveMetadata for a key that is no longer in
the in-memory map returns without creating or modifying any mirror file. -/
theorem C10_stale_save (st : TrackerState) (fs : FS) (key : String)
    (h : alookup st key = none) : saveMetadata st fs key = fs := by
  unfold saveMetadata
  rw [h]

/-- Witness for C10: after RemoveBlob's in-memory deletion, a stale save for
the removed key leaves the mirror untouched. -/
theorem C10_stale_save_witness :
    saveMetadata
      (aerase [("sha256:abc", { digest := "sha256:abc", lastAccessed := 0, size := 1,
                                createdAt := 0 })] "sha256:abc")
      [(["f.json"], (none : Option BlobMeta))] "sha256:abc"
      = [(["f.json"], none)] :=
  C10_stale_save _ _ _ (by decide)

/-- C8: RemoveBlob always leaves the key absent from the in-memory map
(whatever the mirror I/O does); with no injected fault it returns a nil error
whether or not the mirror file existed, and the mirror file is absent
afterwards; a non-IsNotExist I/O failure is returned to the caller while the
in-memory removal is kept. -/
theorem C8_removeBlob (st : TrackerState) (fs : FS) (key : String) :
    (∀ fault, alookup (RemoveBlob st fs key fault).2.1 key = none) ∧
    ((RemoveBlob st fs key false).1 = none) ∧
    (alookup (RemoveBlob st fs key false).2.2 (getMetaFilePath key) = none) ∧
    ((RemoveBlob st fs key true).1 = some { msg := "removing metadata file" }) := by
  refine ⟨?g1, ?g2, ?g3, ?g4⟩
  · intro fault
    rw [removeBlob_state]
    exact alookup_aerase_self st key
  · unfold RemoveBlob osRemove
    cases h : alookup fs (getMetaFilePath key) <;> simp [h]
  · unfold RemoveBlob osRemove
    cases h : alookup fs (getMetaFilePath key) with
    | none => simp [h]
    | some v => simp [h, alookup_aerase_self]
  · rfl

/-- C6: every intercepted operation is pass-through: a failing base
GetContent/Reader/Writer/Move propagates its error unchanged with the tracker
untouched, and on success the returned bytes/handle/result are the base
driver's, for EVERY behaviour `rec` of the tracker's record call — in
particular a record call reporting an error never turns the successful
operation into a reported error. -/
theorem C6_passthrough {α : Type}
    (rec : TrackerState → String → Int → Int → Option GoError × TrackerState)
    (st : TrackerState) (now : Int) (path : String) (e : GoError)
    (content : List Nat) (rdr w : α) (stat : Except GoError Int) :
    (DriverGetContent rec (Except.error e) st now path = (Except.error e, st)) ∧
    ((DriverGetContent rec (Except.ok content) st now path).1 = Except.ok content) ∧
    (DriverReader (α := α) rec (Except.error e) stat st now path = (Except.error e, st)) ∧
    ((DriverReader rec (Except.ok rdr) stat st now path).1 = Except.ok rdr) ∧
    (DriverWriter (Except.error e) path = (Except.error e : Except GoError (LruFileWriter α))) ∧
    (DriverWriter (Except.ok w) path =
        Except.ok { fileWriter := w, digest := extractDigestFromPath path, path := path }) ∧
    (DriverMove rec (some e) stat st now path = (some e, st)) ∧
    ((DriverMove rec none stat st now path).1 = none) := by
  refine ⟨rfl, ?g1, rfl, ?g2, rfl, rfl, rfl, ?g3⟩
  · by_cases h : extractDigestFromPath path = "" <;> simp [DriverGetContent, h]
  · by_cases h : extractDigestFromPath path = ""
    · simp [DriverReader, h]
    · cases stat <;> simp [DriverReader, h]
  · by_cases h : extractDigestFromPath path = "" <;> simp [DriverMove, h]

/-- C5 counterexample: a write handle for an upload path (no "blobs" shape,
so no digest is extracted) whose base Commit succeeds — yet no recordWrite
happens: the tracker stays empty.  recordWrite is therefore NOT invoked "if
and only if Commit succeeds". -/
theorem C5_counterexample :
    extractDigestFromPath "/docker/registry/v2/repositories/lib/foo/_uploads/xyz12345" = "" ∧
    lruFileWriterCommit RecordWrite
      { fileWriter := (),
        digest := extractDigestFromPath "/docker/registry/v2/repositories/lib/foo/_uploads/xyz12345",
        path := "/docker/registry/v2/repositories/lib/foo/_uploads/xyz12345" }
      none (Except.ok 5) [] 10 = (none, []) := by decide

/-- C5 (amended): recordWrite is triggered exactly when the base Commit
succeeds AND a digest was extracted from the path at open time AND the
committed content's Stat succeeds; a failed Commit propagates its error with
the tracker untouched, so an aborted or never-committed write leaves no
tracking trace for the key. -/
theorem C5_commit_tracking_amended {α : Type} (w : LruFileWriter α) (st : TrackerState)
    (stat : Except GoError Int) (now : Int) (hfresh : alookup st w.digest = none) :
    (∀ e, lruFileWriterCommit RecordWrite w (some e) stat st now = (some e, st)) ∧
    (∀ e, alookup (lruFileWriterCommit RecordWrite w (some e) stat st now).2 w.digest = none) ∧
    (∀ sz, w.digest ≠ "" →
        (lruFileWriterCommit RecordWrite w none (Except.ok sz) st now).1 = none ∧
        alookup (lruFileWriterCommit RecordWrite w none (Except.ok sz) st now).2 w.digest =
          some { digest := w.digest, lastAccessed := now, size := sz, createdAt := now }) ∧
    (w.digest = "" → lruFileWriterCommit RecordWrite w none stat st now = (none, st)) ∧
    (∀ e, stat = Except.error e → lruFileWriterCommit RecordWrite w none stat st now = (none, st)) := by
  refine ⟨fun e => rfl, fun e => hfresh, ?g1, ?g2, ?g3⟩
  · intro sz hne
    constructor
    · simp [lruFileWriterCommit, hne]
    · simp only [lruFileWriterCommit, if_neg hne, DriverRecordWrite, RecordWrite]
      exact recordAccess_lookup_self_new st w.digest sz now hfresh
  · intro h0
    simp [lruFileWriterCommit, h0]
  · intro e he
    subst he
    by_cases h0 : w.digest = "" <;> simp [lruFileWriterCommit, DriverRecordWrite, h0]

/-- Witness for the amended C5: committing a write to a real blob path
records the key with the statted size. -/
theorem C5_amended_witness :
    alookup (lruFileWriterCommit RecordWrite
      { fileWriter := (),
        digest := extractDigestFromPath "/docker/registry/v2/blobs/sha256/aa/aaaaaaaaaaaaaaaaaaaaaaaaaaaaaaaaaaaaaaaaaaaaaaaaaaaaaaaaaaaaaaaa/data",
        path := "/docker/registry/v2/blobs/sha256/aa/aaaaaaaaaaaaaaaaaaaaaaaaaaaaaaaaaaaaaaaaaaaaaaaaaaaaaaaaaaaaaaaa/data" }
      none (Except.ok 123) [] 9).2
      (extractDigestFromPath "/docker/registry/v2/blobs/sha256/aa/aaaaaaaaaaaaaaaaaaaaaaaaaaaaaaaaaaaaaaaaaaaaaaaaaaaaaaaaaaaaaaaa/data") =
      some { digest := "sha256:aaaaaaaaaaaaaaaaaaaaaaaaaaaaaaaaaaaaaaaaaaaaaaaaaaaaaaaaaaaaaaaa",
             lastAccessed := 9, size := 123, createdAt := 9 } := by
  have h := ((C5_commit_tracking_amended (α := Unit)
    { fileWriter := (),
      digest := extractDigestFromPath "/docker/registry/v2/blobs/sha256/aa/aaaaaaaaaaaaaaaaaaaaaaaaaaaaaaaaaaaaaaaaaaaaaaaaaaaaaaaaaaaaaaaa/data",
      path := "/docker/registry/v2/blobs/sha256/aa/aaaaaaaaaaaaaaaaaaaaaaaaaaaaaaaaaaaaaaaaaaaaaaaaaaaaaaaaaaaaaaaa/data" }
    [] (Except.ok 123) 9 rfl).2.2.1 123 (by decide)).2
  rw [h]
  decide

/-- C2 counterexample: a tracked key that does not parse as a digest (loaded
from a mirror file recording digest "garbage-key") satisfies
now - lastAccessed > ttl strictly, yet GetExpiredBlobs does not return it —
the claim's "if and only if" over every tracked key fails. -/
theorem C2_counterexample :
    alookup (loadMetadata [(["g.json"],
        some { digest := "garbage-key", lastAccessed := 0, size := 1, createdAt := 0 })] [])
      "garbage-key" =
      some { digest := "garbage-key", lastAccessed := 0, size := 1, createdAt := 0 } ∧
    ((10 : Int) < 100 - 0) ∧
    GetExpiredBlobs (loadMetadata [(["g.json"],
        some { digest := "garbage-key", lastAccessed := 0, size := 1, createdAt := 0 })] [])
      100 10 = [] := by decide

/-- C2 (amended): for a tracker state with distinct keys, GetExpiredBlobs
returns a key iff the key parses as a valid digest AND now - lastAccessed >
ttl holds strictly for its entry. -/
theorem C2_expiry_amended (st : TrackerState) (now ttl : Int) (k : String)
    (hnd : nodupKeys st) :
    k ∈ GetExpiredBlobs st now ttl ↔
      digestValid k = true ∧ ∃ m, alookup st k = some m ∧ ttl < now - m.lastAccessed := by
  constructor
  · exact fun h => mem_getExpiredBlobs_elim st now ttl k hnd h
  · rintro ⟨hv, m, hl, hlt⟩
    exact mem_getExpiredBlobs_intro st now ttl k m (mem_of_alookup_eq_some hl) hv hlt

/-- Witness for the amended C2: a valid digest key accessed 100-0 time units
ago with ttl 10 is reported expired. -/
theorem C2_amended_witness :
    "sha256:aaaaaaaaaaaaaaaaaaaaaaaaaaaaaaaaaaaaaaaaaaaaaaaaaaaaaaaaaaaaaaaa" ∈
      GetExpiredBlobs
        [("sha256:aaaaaaaaaaaaaaaaaaaaaaaaaaaaaaaaaaaaaaaaaaaaaaaaaaaaaaaaaaaaaaaa",
          { digest := "sha256:aaaaaaaaaaaaaaaaaaaaaaaaaaaaaaaaaaaaaaaaaaaaaaaaaaaaaaaaaaaaaaaa",
            lastAccessed := 0, size := 1, createdAt := 0 })] 100 10 :=
  (C2_expiry_amended _ 100 10 _ (by decide)).mpr
    ⟨by decide,
      { digest := "sha256:aaaaaaaaaaaaaaaaaaaaaaaaaaaaaaaaaaaaaaaaaaaaaaaaaaaaaaaaaaaaaaaa",
        lastAccessed := 0, size := 1, createdAt := 0 },
      by decide, by decide⟩

/-- C7: in a cleanup cycle, every expired key whose deletion callback fails
keeps its BlobMeta untouched in the tracker and is reported expired again by
any later query at a clock not before this one; only expired keys whose
callback succeeds are removed. -/
theorem C7_failed_deletion_retry (st : TrackerState) (fs : FS) (now ttl : Int)
    (deleteOk removeFault : String → Bool) (hnd : nodupKeys st) :
    (∀ k, k ∈ GetExpiredBlobs st now ttl → deleteOk k = false →
        alookup (runCleanup st fs now ttl deleteOk removeFault).1 k = alookup st k ∧
        ∀ now2, now ≤ now2 →
          k ∈ GetExpiredBlobs (runCleanup st fs now ttl deleteOk removeFault).1 now2 ttl) ∧
    (∀ k, k ∈ GetExpiredBlobs st now ttl → deleteOk k = true →
        alookup (runCleanup st fs now ttl deleteOk removeFault).1 k = none) := by
  unfold runCleanup
  constructor
  · intro k hmem hfail
    have hpres := cleanupFold_lookup_preserved deleteOk removeFault k hfail
      (GetExpiredBlobs st now ttl) (st, fs)
    refine ⟨hpres, ?g1⟩
    intro now2 hle
    rcases mem_getExpiredBlobs_elim st now ttl k hnd hmem with ⟨hv, m, hl, hlt⟩
    refine mem_getExpiredBlobs_intro _ now2 ttl k m ?g2 hv (by omega)
    apply mem_of_alookup_eq_some
    rw [hpres]
    exact hl
  · intro k hmem hsucc
    exact cleanupFold_removes deleteOk removeFault k hsucc
      (GetExpiredBlobs st now ttl) (st, fs) hmem

/-- Witness for C7: two expired keys; the callback fails for the first and
succeeds for the second, so the first stays tracked and expired while the
second is removed. -/
theorem C7_witness :
    alookup (runCleanup
      [("sha256:aaaaaaaaaaaaaaaaaaaaaaaaaaaaaaaaaaaaaaaaaaaaaaaaaaaaaaaaaaaaaaaa",
        { digest := "sha256:aaaaaaaaaaaaaaaaaaaaaaaaaaaaaaaaaaaaaaaaaaaaaaaaaaaaaaaaaaaaaaaa",
          lastAccessed := 0, size := 1, createdAt := 0 }),
       ("sha256:bbbbbbbbbbbbbbbbbbbbbbbbbbbbbbbbbbbbbbbbbbbbbbbbbbbbbbbbbbbbbbbb",
        { digest := "sha256:bbbbbbbbbbbbbbbbbbbbbbbbbbbbbbbbbbbbbbbbbbbbbbbbbbbbbbbbbbbbbbbb",
          lastAccessed := 0, size := 2, createdAt := 0 })] [] 100 10
      (fun k => k == "sha256:bbbbbbbbbbbbbbbbbbbbbbbbbbbbbbbbbbbbbbbbbbbbbbbbbbbbbbbbbbbbbbbb")
      (fun _ => false)).1
      "sha256:aaaaaaaaaaaaaaaaaaaaaaaaaaaaaaaaaaaaaaaaaaaaaaaaaaaaaaaaaaaaaaaa" =
      some { digest := "sha256:aaaaaaaaaaaaaaaaaaaaaaaaaaaaaaaaaaaaaaaaaaaaaaaaaaaaaaaaaaaaaaaa",
             lastAccessed := 0, size := 1, createdAt := 0 } ∧
    "sha256:aaaaaaaaaaaaaaaaaaaaaaaaaaaaaaaaaaaaaaaaaaaaaaaaaaaaaaaaaaaaaaaa" ∈
      GetExpiredBlobs (runCleanup
        [("sha256:aaaaaaaaaaaaaaaaaaaaaaaaaaaaaaaaaaaaaaaaaaaaaaaaaaaaaaaaaaaaaaaa",
          { digest := "sha256:aaaaaaaaaaaaaaaaaaaaaaaaaaaaaaaaaaaaaaaaaaaaaaaaaaaaaaaaaaaaaaaa",
            lastAccessed := 0, size := 1, createdAt := 0 }),
         ("sha256:bbbbbbbbbbbbbbbbbbbbbbbbbbbbbbbbbbbbbbbbbbbbbbbbbbbbbbbbbbbbbbbb",
          { digest := "sha256:bbbbbbbbbbbbbbbbbbbbbbbbbbbbbbbbbbbbbbbbbbbbbbbbbbbbbbbbbbbbbbbb",
            lastAccessed := 0, size := 2, createdAt := 0 })] [] 100 10
        (fun k => k == "sha256:bbbbbbbbbbbbbbbbbbbbbbbbbbbbbbbbbbbbbbbbbbbbbbbbbbbbbbbbbbbbbbbb")
        (fun _ => false)).1 100 10 ∧
    alookup (runCleanup
      [("sha256:aaaaaaaaaaaaaaaaaaaaaaaaaaaaaaaaaaaaaaaaaaaaaaaaaaaaaaaaaaaaaaaa",
        { digest := "sha256:aaaaaaaaaaaaaaaaaaaaaaaaaaaaaaaaaaaaaaaaaaaaaaaaaaaaaaaaaaaaaaaa",
          lastAccessed := 0, size := 1, createdAt := 0 }),
       ("sha256:bbbbbbbbbbbbbbbbbbbbbbbbbbbbbbbbbbbbbbbbbbbbbbbbbbbbbbbbbbbbbbbb",
        { digest := "sha256:bbbbbbbbbbbbbbbbbbbbbbbbbbbbbbbbbbbbbbbbbbbbbbbbbbbbbbbbbbbbbbbb",
          lastAccessed := 0, size := 2, createdAt := 0 })] [] 100 10
      (fun k => k == "sha256:bbbbbbbbbbbbbbbbbbbbbbbbbbbbbbbbbbbbbbbbbbbbbbbbbbbbbbbbbbbbbbbb")
      (fun _ => false)).1
      "sha256:bbbbbbbbbbbbbbbbbbbbbbbbbbbbbbbbbbbbbbbbbbbbbbbbbbbbbbbbbbbbbbbb" = none := by
  have h := C7_failed_deletion_retry
    [("sha256:aaaaaaaaaaaaaaaaaaaaaaaaaaaaaaaaaaaaaaaaaaaaaaaaaaaaaaaaaaaaaaaa",
      { digest := "sha256:aaaaaaaaaaaaaaaaaaaaaaaaaaaaaaaaaaaaaaaaaaaaaaaaaaaaaaaaaaaaaaaa",
        lastAccessed := 0, size := 1, createdAt := 0 }),
     ("sha256:bbbbbbbbbbbbbbbbbbbbbbbbbbbbbbbbbbbbbbbbbbbbbbbbbbbbbbbbbbbbbbbb",
      { digest := "sha256:bbbbbbbbbbbbbbbbbbbbbbbbbbbbbbbbbbbbbbbbbbbbbbbbbbbbbbbbbbbbbbbb",
        lastAccessed := 0, size := 2, createdAt := 0 })] [] 100 10
    (fun k => k == "sha256:bbbbbbbbbbbbbbbbbbbbbbbbbbbbbbbbbbbbbbbbbbbbbbbbbbbbbbbbbbbbbbbb")
    (fun _ => false) (by decide)
  refine ⟨?g1, ?g2, ?g3⟩
  · rw [(h.1 "sha256:aaaaaaaaaaaaaaaaaaaaaaaaaaaaaaaaaaaaaaaaaaaaaaaaaaaaaaaaaaaaaaaa"
      (by decide) (by decide)).1]
    decide
  · exact (h.1 "sha256:aaaaaaaaaaaaaaaaaaaaaaaaaaaaaaaaaaaaaaaaaaaaaaaaaaaaaaaaaaaaaaaa"
      (by decide) (by decide)).2 100 (by decide)
  · exact h.2 "sha256:bbbbbbbbbbbbbbbbbbbbbbbbbbbbbbbbbbbbbbbbbbbbbbbbbbbbbbbbbbbbbbbb"
      (by decide) (by decide)

/-- C4 counterexample: a path whose shard segment "zz9" has three characters
does not match the spec's fixed blob shape (which demands a two-character
shard), yet extractDigestFromPath returns a key — the extractor never
validates the shard segment, so "every path not matching this shape yields
none" fails. -/
theorem C4_counterexample :
    specHasBlobShape (splitPath
      "/v2/blobs/sha256/zz9/aaaaaaaaaaaaaaaaaaaaaaaaaaaaaaaaaaaaaaaaaaaaaaaaaaaaaaaaaaaaaaaa/data")
      = false ∧
    extractDigestFromPath
      "/v2/blobs/sha256/zz9/aaaaaaaaaaaaaaaaaaaaaaaaaaaaaaaaaaaaaaaaaaaaaaaaaaaaaaaaaaaaaaaa/data"
      = "sha256:aaaaaaaaaaaaaaaaaaaaaaaaaaaaaaaaaaaaaaaaaaaaaaaaaaaaaaaaaaaaaaaa" := by decide

/-- C4 (amended): extractDigestFromPath is total by construction and never
yields a non-digest: any non-empty result is a valid digest reconstructed as
algorithm:fullDigest from some "blobs" segment followed by the algorithm, ONE
arbitrary (unvalidated) shard segment, and the digest segment; conversely any
path of at least 20 bytes containing such a decomposition with a parseable
algorithm:digest yields a key (not none). -/
theorem C4_extract_amended (path : String) :
    (extractDigestFromPath path ≠ "" →
        digestValid (extractDigestFromPath path) = true ∧
        ∃ l r alg shard full,
          splitPath path = l ++ "blobs" :: alg :: shard :: full :: r ∧
          extractDigestFromPath path = alg ++ ":" ++ full) ∧
    (∀ l r alg shard full,
        splitPath path = l ++ "blobs" :: alg :: shard :: full :: r →
        digestValid (alg ++ ":" ++ full) = true → 20 ≤ strLen path →
        extractDigestFromPath path ≠ "") := by
  constructor
  · intro h
    unfold extractDigestFromPath at h ⊢
    by_cases hl : strLen path < 20
    · rw [if_pos hl] at h
      exact absurd rfl h
    · rw [if_neg hl] at h ⊢
      rcases extractScan_sound (splitPath path) h with ⟨l, r, alg, shard, full, hdec, heq⟩
      refine ⟨?g1, l, r, alg, shard, full, hdec, heq⟩
      rcases extractScan_valid (splitPath path) with h0 | hv
      · exact absurd h0 h
      · exact hv
  · intro l r alg shard full hdec hv hlen
    unfold extractDigestFromPath
    rw [if_neg (by omega : ¬ strLen path < 20), hdec]
    exact extractScan_complete l alg shard full r hv

/-- Witness for the amended C4: a canonical registry blob path yields a key. -/
theorem C4_amended_witness :
    extractDigestFromPath
      "/docker/registry/v2/blobs/sha256/aa/aaaaaaaaaaaaaaaaaaaaaaaaaaaaaaaaaaaaaaaaaaaaaaaaaaaaaaaaaaaaaaaa/data"
      ≠ "" :=
  (C4_extract_amended
      "/docker/registry/v2/blobs/sha256/aa/aaaaaaaaaaaaaaaaaaaaaaaaaaaaaaaaaaaaaaaaaaaaaaaaaaaaaaaaaaaaaaaa/data").2
    ["docker", "registry", "v2"] ["data"] "sha256" "aa"
    "aaaaaaaaaaaaaaaaaaaaaaaaaaaaaaaaaaaaaaaaaaaaaaaaaaaaaaaaaaaaaaaa"
    (by decide) (by decide) (by decide)

/-- C1 (code bug): saveMetadata shards every key longer than 10 characters
(every real digest key) into metaDir/k[0:2]/k[2:4]/key.json, but loadMetadata
reads only the immediate children of metaDir and skips directories, so the
persisted entry is NOT reloaded after a restart — the round-trip loses the
entry (lookup yields none instead of the original).  Only unrealistically
short keys (at most 10 characters, impossible for a digest) round-trip. -/
theorem C1_roundtrip_code_bug :
    (saveMetadata
        [("sha256:aaaaaaaaaaaaaaaaaaaaaaaaaaaaaaaaaaaaaaaaaaaaaaaaaaaaaaaaaaaaaaaa",
          { digest := "sha256:aaaaaaaaaaaaaaaaaaaaaaaaaaaaaaaaaaaaaaaaaaaaaaaaaaaaaaaaaaaaaaaa",
            lastAccessed := 5, size := 100, createdAt := 5 })] []
        "sha256:aaaaaaaaaaaaaaaaaaaaaaaaaaaaaaaaaaaaaaaaaaaaaaaaaaaaaaaaaaaaaaaa" =
      [(["sh", "a2",
         "sha256:aaaaaaaaaaaaaaaaaaaaaaaaaaaaaaaaaaaaaaaaaaaaaaaaaaaaaaaaaaaaaaaa.json"],
        some { digest := "sha256:aaaaaaaaaaaaaaaaaaaaaaaaaaaaaaaaaaaaaaaaaaaaaaaaaaaaaaaaaaaaaaaa",
               lastAccessed := 5, size := 100, createdAt := 5 })]) ∧
    (loadMetadata
        (saveMetadata
          [("sha256:aaaaaaaaaaaaaaaaaaaaaaaaaaaaaaaaaaaaaaaaaaaaaaaaaaaaaaaaaaaaaaaa",
            { digest := "sha256:aaaaaaaaaaaaaaaaaaaaaaaaaaaaaaaaaaaaaaaaaaaaaaaaaaaaaaaaaaaaaaaa",
              lastAccessed := 5, size := 100, createdAt := 5 })] []
          "sha256:aaaaaaaaaaaaaaaaaaaaaaaaaaaaaaaaaaaaaaaaaaaaaaaaaaaaaaaaaaaaaaaa") [] =
      ([] : TrackerState)) ∧
    (alookup
        (loadMetadata
          (saveMetadata
            [("sha256:aaaaaaaaaaaaaaaaaaaaaaaaaaaaaaaaaaaaaaaaaaaaaaaaaaaaaaaaaaaaaaaa",
              { digest := "sha256:aaaaaaaaaaaaaaaaaaaaaaaaaaaaaaaaaaaaaaaaaaaaaaaaaaaaaaaaaaaaaaaa",
                lastAccessed := 5, size := 100, createdAt := 5 })] []
            "sha256:aaaaaaaaaaaaaaaaaaaaaaaaaaaaaaaaaaaaaaaaaaaaaaaaaaaaaaaaaaaaaaaa") [])
        "sha256:aaaaaaaaaaaaaaaaaaaaaaaaaaaaaaaaaaaaaaaaaaaaaaaaaaaaaaaaaaaaaaaa" = none) ∧
    (alookup
        (loadMetadata
          (saveMetadata
            [("short", { digest := "short", lastAccessed := 5, size := 100, createdAt := 5 })]
            [] "short") [])
        "short" =
      some { digest := "short", lastAccessed := 5, size := 100, createdAt := 5 }) := by decide
